import Mathlib

/-!
# Vision Workbench: `Datastore` factory / `get`, and the `image2tms` patch arithmetic

Shallow embedding of

* `src/vw/Plate/Datastore.cc`: the two `Datastore::open` factory overloads and the
  two `Datastore::get` convenience wrappers;
* `Graveyard/tools/image2tms.cc`: the command-line validation in `main` and the
  patch-aligned `data_bbox` computed in `do_mosaic`.
-/

namespace vw
namespace platefile

/-! ## Data model of `Datastore.cc` -/

/-- Modelled from the spec: the class `Url` (declared in `vw/Plate/HTTPUtils.h`) is a
location identifier, "a URL-like string whose scheme selects the backend; the remainder
addresses the backend-specific storage location".  An absent scheme is the empty string. -/
structure Url where
  scheme : String
  remainder : String
deriving DecidableEq, Repr

/-- Modelled from the spec: the `IndexHeader` record (a protocol-buffer type that is not
defined in `Datastore.cc`): "tile size in pixels, pixel/channel format tag, pyramid depth
hint, store format version". -/
structure IndexHeader where
  tile_size : Nat
  pixel_format : Nat
  depth_hint : Nat
  version : Nat
deriving DecidableEq, Repr

/-- Modelled from the spec: the error taxonomy of section 7. -/
inductive DatastoreError where
  | SchemeUnsupported
  | NotFound
  | AlreadyExists
  | InvalidHeader
  | FormatMismatch
  | Corrupt
  | MissingPayload
  | WriteConflict
  | IOFailure
deriving DecidableEq, Repr

/-- The two concrete classes named in `Datastore.cc`: `detail::Dirstore` and
`detail::Blobstore`. -/
inductive Backend where
  | Dirstore
  | Blobstore
deriving DecidableEq, Repr

/-- A `new detail::X(args)` expression: the class that is instantiated together with the
constructor arguments.  `header = none` is the one-argument constructor `X(url)`,
`header = some d` the two-argument constructor `X(url, d)`. -/
structure Construction where
  backend : Backend
  url : Url
  header : Option IndexHeader
deriving DecidableEq, Repr

/-- Embedding of `Datastore* Datastore::open(const Url& url)`.  Both branches `return new ...`;
the `vw_throw(NoImplErr() ...)` line after them is commented out in the source, so the
factory has no failing branch of its own. -/
def Datastore.open (url : Url) : Except DatastoreError Construction :=
  if url.scheme = "dir" then
    Except.ok { backend := Backend.Dirstore, url := url, header := none }
  else
    Except.ok { backend := Backend.Blobstore, url := url, header := none }

/-- Embedding of `Datastore* Datastore::open(const Url& url, const IndexHeader& d)`. -/
def Datastore.open_header (url : Url) (d : IndexHeader) : Except DatastoreError Construction :=
  if url.scheme = "dir" then
    Except.ok { backend := Backend.Dirstore, url := url, header := some d }
  else
    Except.ok { backend := Backend.Blobstore, url := url, header := some d }

/-- The backend class instantiated by a factory call, when it returns one. -/
def constructed (r : Except DatastoreError Construction) : Option Backend :=
  match r with
  | Except.ok c => some c.backend
  | Except.error _ => none

/-- Modelled from the spec: `TransactionRange` (declared in `vw/Plate/Datastore.h`), "either a
single transaction id (exact version) or an inclusive [min, max] interval". -/
structure TransactionRange where
  first : Nat
  last : Nat
deriving DecidableEq, Repr

/-- Modelled from the spec: `BBox2u` (declared in `vw/Math/BBox.h`), the bounding region of a
region query, an axis-aligned box of unsigned tile coordinates. -/
structure BBox2u where
  min_x : Nat
  min_y : Nat
  max_x : Nat
  max_y : Nat
deriving DecidableEq, Repr

/-- The virtual methods of `Datastore` that `get` calls through `this`.  They are declared in
`vw/Plate/Datastore.h` and implemented by the backends, so they are parameters here.
`σ` is the program state the calls act on (the datastore object and the memory holding the
result buffers), `ρ` the type of `TileSearch&` references.  `uint32` arguments are passed by
value and never computed with, so they are natural numbers.  The value returned by `head` is
discarded by both callers and is not part of the record. -/
structure Datastore (σ ρ : Type) where
  head : ρ → Nat → Nat → Nat → TransactionRange → Nat → σ → σ
  head_region : ρ → Nat → BBox2u → TransactionRange → Nat → σ → σ
  populate : ρ → σ → ρ × σ

/-- Embedding of
`Datastore::get(TileSearch& buf, uint32 level, uint32 row, uint32 col, TransactionRange range, uint32 limit)`:
the returned reference together with the final state. -/
def Datastore.get {σ ρ : Type} (self : Datastore σ ρ) (buf : ρ) (level row col : Nat)
    (range : TransactionRange) (limit : Nat) (s : σ) : ρ × σ :=
  let s1 := self.head buf level row col range limit s
  self.populate buf s1

/-- Embedding of
`Datastore::get(TileSearch& buf, uint32 level, const BBox2u& region, TransactionRange range, uint32 limit)`. -/
def Datastore.get_region {σ ρ : Type} (self : Datastore σ ρ) (buf : ρ) (level : Nat)
    (region : BBox2u) (range : TransactionRange) (limit : Nat) (s : σ) : ρ × σ :=
  let s1 := self.head_region buf level region range limit s
  self.populate buf s1

/-- One call of a virtual method, with the arguments it received. -/
inductive Call (ρ : Type) where
  | head (buf : ρ) (level row col : Nat) (range : TransactionRange) (limit : Nat)
  | head_region (buf : ρ) (level : Nat) (region : BBox2u) (range : TransactionRange) (limit : Nat)
  | populate (buf : ρ)
deriving DecidableEq, Repr

/-- Instrumentation of an arbitrary datastore: every virtual method behaves as in `ds` and
appends a record of the call to a log kept beside the state. -/
def traced {σ ρ : Type} (ds : Datastore σ ρ) : Datastore (σ × List (Call ρ)) ρ where
  head buf level row col range limit s :=
    (ds.head buf level row col range limit s.1, s.2 ++ [Call.head buf level row col range limit])
  head_region buf level region range limit s :=
    (ds.head_region buf level region range limit s.1,
      s.2 ++ [Call.head_region buf level region range limit])
  populate buf s :=
    ((ds.populate buf s.1).1, (ds.populate buf s.1).2, s.2 ++ [Call.populate buf])

end platefile
end vw

/-! ## `image2tms`: validation in `main` -/

namespace image2tms

/-- The values `main` reads once `po::notify` has filled the globals: the two option counts
that are tested and the globals `patch_size`, `patch_overlap` (C++ `int`) and `channel_type`. -/
structure Options where
  help : Nat
  input_file : Nat
  patch_size : Int
  patch_overlap : Int
  channel_type : String
deriving DecidableEq, Repr

/-- The C++ `%` on `int`: the remainder of the division that truncates toward zero. -/
def cmod (a b : Int) : Int := Int.tmod a b

/-- The condition of the fourth `if` of `main`:
`patch_overlap<0 || patch_overlap>=patch_size || patch_overlap%2==1`. -/
def overlap_check (patch_size patch_overlap : Int) : Bool :=
  decide (patch_overlap < 0) || decide (patch_overlap ≥ patch_size) ||
    decide (cmod patch_overlap 2 = 1)

/-- The exits of `main`. -/
inductive Outcome where
  | help_usage
  | error_input_file
  | error_patch_size
  | error_patch_overlap
  | mosaic (channel : String)
  | unknown_channel
deriving DecidableEq, Repr

/-- Embedding of the control flow of `main` after option parsing. -/
def main (o : Options) : Outcome :=
  if o.help ≠ 0 then Outcome.help_usage
  else if o.input_file < 1 then Outcome.error_input_file
  else if o.patch_size ≤ 0 then Outcome.error_patch_size
  else if overlap_check o.patch_size o.patch_overlap then Outcome.error_patch_overlap
  else if o.channel_type = "uint8" then Outcome.mosaic "uint8"
  else if o.channel_type = "uint16" then Outcome.mosaic "uint16"
  else if o.channel_type = "int16" then Outcome.mosaic "int16"
  else if o.channel_type = "float" then Outcome.mosaic "float"
  else Outcome.unknown_channel

/-- The value `main` returns at each exit: `return 1` after the usage text and after each
error message, `return 0` at the end of the function (for `mosaic`, once `do_mosaic` has
returned). -/
def Outcome.return_value : Outcome → Int
  | Outcome.help_usage => 1
  | Outcome.error_input_file => 1
  | Outcome.error_patch_size => 1
  | Outcome.error_patch_overlap => 1
  | Outcome.mosaic _ => 0
  | Outcome.unknown_channel => 0

/-! ## `image2tms`: the patch-aligned bounding box of `do_mosaic`

The four arguments of `data_bbox` are computed in `double` arithmetic and converted back to
`int` by the `BBox2i` constructor.  A `double` is modelled by the rational number it denotes,
and every arithmetic operation rounds its exact result to the nearest binary64 value. -/

/-- Nearest integer to `m`, a tie going to the even neighbour. -/
def round_half_even (m : ℚ) : ℤ :=
  if m - ⌊m⌋ < 1 / 2 then ⌊m⌋
  else if 1 / 2 < m - ⌊m⌋ then ⌊m⌋ + 1
  else if ⌊m⌋ % 2 = 0 then ⌊m⌋ else ⌊m⌋ + 1

/-- Rounding of a positive rational to a 53-bit significand: with `e = ⌊log₂ q⌋ - 52` the
scaled value `q / 2^e` lies in `[2^52, 2^53)` and is rounded to an integer. -/
def round_pos (q : ℚ) : ℚ :=
  round_half_even (q / 2 ^ (Int.log 2 q - 52)) * 2 ^ (Int.log 2 q - 52)

/-- The binary64 value nearest to `q` (IEEE 754 round-to-nearest, ties-to-even), which is
what a C++ `double` operation returns for the exact result `q`.  The exponent is not bounded
here; the values that occur in `data_bbox` are zero or of magnitude between `2^-31` and
`2^33`, far inside the normal range of binary64. -/
def round_double (q : ℚ) : ℚ :=
  if q = 0 then 0 else if 0 < q then round_pos q else - round_pos (-q)

/-- The least value of a 32-bit `int`. -/
def INT_MIN : Int := -2147483648

/-- The greatest value of a 32-bit `int`. -/
def INT_MAX : Int := 2147483647

/-- Modelled from the spec: `BBox2i` (declared in `vw/Math/BBox.h`) is not described by the
spec; a box is given here by the four `int` values that `do_mosaic` reads from the composite
box (`min().x()`, `min().y()`, `width()`, `height()`), which are also the four arguments of
the constructor `BBox2i(minx, miny, width, height)` used for `data_bbox` and for
`BBox2i(0,0,source.cols(),source.rows())`.  The maximum corner is `min + extent`. -/
structure BBox2i where
  min_x : Int
  min_y : Int
  width : Int
  height : Int
deriving DecidableEq, Repr

/-- The four values of a box are values of a 32-bit `int`. -/
def BBox2i.is_int32 (b : BBox2i) : Prop :=
  (INT_MIN ≤ b.min_x ∧ b.min_x ≤ INT_MAX) ∧ (INT_MIN ≤ b.min_y ∧ b.min_y ≤ INT_MAX) ∧
  (INT_MIN ≤ b.width ∧ b.width ≤ INT_MAX) ∧ (INT_MIN ≤ b.height ∧ b.height ≤ INT_MAX)

instance (b : BBox2i) : Decidable b.is_int32 :=
  inferInstanceAs (Decidable (_ ∧ _ ∧ _ ∧ _))

/-- The implicit conversion of a `double` to `int` at the `BBox2i` constructor: the value is
truncated toward zero; when the truncated value is not representable in `int` the behaviour
is undefined and there is no result. -/
def double_to_int (x : ℚ) : Option Int :=
  if INT_MIN ≤ (if 0 ≤ x then ⌊x⌋ else ⌈x⌉) ∧ (if 0 ≤ x then ⌊x⌋ else ⌈x⌉) ≤ INT_MAX then
    some (if 0 ≤ x then ⌊x⌋ else ⌈x⌉)
  else none

/-- The expression `std::floor(double(v)/patch_size)*patch_size` converted to `int`.  The
conversions `double(v)` and `int → double` of `patch_size` are exact for 32-bit values and
`std::floor` returns an exactly representable integer; the division and the multiplication
round. -/
def floor_to_patch (v patch_size : Int) : Option Int :=
  double_to_int
    (round_double ((⌊round_double ((v : ℚ) / (patch_size : ℚ))⌋ : ℚ) * (patch_size : ℚ)))

/-- The expression `std::ceil(double(v)/patch_size)*patch_size` converted to `int`. -/
def ceil_to_patch (v patch_size : Int) : Option Int :=
  double_to_int
    (round_double ((⌈round_double ((v : ℚ) / (patch_size : ℚ))⌉ : ℚ) * (patch_size : ℚ)))

/-- Embedding of the declaration of `data_bbox` in `do_mosaic`, from the composite bounding
box `bbox` and the global `patch_size`.  For `patch_size = 0` the quotients are infinite or
NaN and their conversion to `int` is undefined. -/
def data_bbox (bbox : BBox2i) (patch_size : Int) : Option BBox2i :=
  if patch_size = 0 then none
  else
    match floor_to_patch bbox.min_x patch_size, floor_to_patch bbox.min_y patch_size,
        ceil_to_patch bbox.width patch_size, ceil_to_patch bbox.height patch_size with
    | some x, some y, some w, some h => some { min_x := x, min_y := y, width := w, height := h }
    | _, _, _, _ => none

end image2tms

/-! ## Theorems: `Datastore.cc` -/

namespace vw
namespace platefile

/-- C1: for every URL, `Datastore::open(url)` instantiates `Dirstore` exactly when the scheme
is the string "dir" and `Blobstore` exactly when it is anything else; the empty scheme and
the upper-case variant "DIR" both give `Blobstore`, and the URL is handed to the constructor
unchanged. -/
theorem open_backend_iff_scheme_dir (u : Url) :
    (constructed (Datastore.open u) = some Backend.Dirstore ↔ u.scheme = "dir") ∧
    (constructed (Datastore.open u) = some Backend.Blobstore ↔ u.scheme ≠ "dir") ∧
    (Datastore.open u =
        Except.ok { backend := Backend.Dirstore, url := u, header := none } ∨
      Datastore.open u =
        Except.ok { backend := Backend.Blobstore, url := u, header := none }) ∧
    constructed (Datastore.open { scheme := "", remainder := u.remainder })
      = some Backend.Blobstore ∧
    constructed (Datastore.open { scheme := "DIR", remainder := u.remainder })
      = some Backend.Blobstore := by
  refine ⟨?_, ?_, ?_, ?_, ?_⟩
  · by_cases h : u.scheme = "dir" <;> simp [Datastore.open, constructed, h]
  · by_cases h : u.scheme = "dir" <;> simp [Datastore.open, constructed, h]
  · by_cases h : u.scheme = "dir" <;> simp [Datastore.open, h]
  · simp [Datastore.open, constructed]
  · simp [Datastore.open, constructed]

/-- C2 (as stated, refuted): there is no URL for which the factory `Datastore::open(url)`
returns the error `SchemeUnsupported`; in particular the scheme "ftp", which is neither
"dir" nor a blob scheme, gets a `Blobstore`. -/
theorem open_never_scheme_unsupported :
    (¬ ∃ u : Url, Datastore.open u = Except.error DatastoreError.SchemeUnsupported) ∧
    Datastore.open { scheme := "ftp", remainder := "//host/plate" } =
      Except.ok { backend := Backend.Blobstore,
                  url := { scheme := "ftp", remainder := "//host/plate" }, header := none } := by
  refine ⟨?_, by simp [Datastore.open]⟩
  rintro ⟨u, hu⟩
  by_cases h : u.scheme = "dir" <;> simp [Datastore.open, h] at hu

/-- C2 (amended): `Datastore::open(url)` has no error of its own: for every URL it returns a
constructed backend for that same URL, never an error value; the backend is `Dirstore`
exactly when the scheme is "dir" and `Blobstore` exactly when the scheme is anything else. -/
theorem open_always_constructs (u : Url) :
    (∃ c : Construction, Datastore.open u = Except.ok c ∧ c.url = u ∧ c.header = none ∧
      (c.backend = Backend.Dirstore ↔ u.scheme = "dir") ∧
      (c.backend = Backend.Blobstore ↔ u.scheme ≠ "dir")) ∧
    (∀ e : DatastoreError, Datastore.open u ≠ Except.error e) := by
  by_cases h : u.scheme = "dir"
  · refine ⟨⟨{ backend := Backend.Dirstore, url := u, header := none },
      by simp [Datastore.open, h], rfl, rfl, by simp [h], by simp [h]⟩, ?_⟩
    intro e
    simp [Datastore.open, h]
  · refine ⟨⟨{ backend := Backend.Blobstore, url := u, header := none },
      by simp [Datastore.open, h], rfl, rfl, by simp [h], by simp [h]⟩, ?_⟩
    intro e
    simp [Datastore.open, h]

/-- C3: for every datastore, buffer, level, row, column, range, limit and starting state, the
single-tile `get` returns what `populate` returns on the same buffer in the state left by
`head` called with the caller's arguments; on the instrumented datastore the calls made are
exactly one `head` with those arguments followed by exactly one `populate` on that buffer. -/
theorem get_eq_populate_after_head {σ ρ : Type} (ds : Datastore σ ρ) (buf : ρ)
    (level row col : Nat) (range : TransactionRange) (limit : Nat) (s : σ)
    (log : List (Call ρ)) :
    ds.get buf level row col range limit s
      = ds.populate buf (ds.head buf level row col range limit s) ∧
    (traced ds).get buf level row col range limit (s, log)
      = ((ds.get buf level row col range limit s).1,
         (ds.get buf level row col range limit s).2,
         log ++ [Call.head buf level row col range limit, Call.populate buf]) := by
  constructor
  · rfl
  · simp [Datastore.get, traced]

/-- C4: for every datastore, buffer, level, region, range, limit and starting state, the
region `get` returns what `populate` returns on the same buffer in the state left by the
region `head` called with the caller's arguments; on the instrumented datastore the calls
made are exactly one region `head` with those arguments followed by exactly one `populate`
on that buffer. -/
theorem get_region_eq_populate_after_head {σ ρ : Type} (ds : Datastore σ ρ) (buf : ρ)
    (level : Nat) (region : BBox2u) (range : TransactionRange) (limit : Nat) (s : σ)
    (log : List (Call ρ)) :
    ds.get_region buf level region range limit s
      = ds.populate buf (ds.head_region buf level region range limit s) ∧
    (traced ds).get_region buf level region range limit (s, log)
      = ((ds.get_region buf level region range limit s).1,
         (ds.get_region buf level region range limit s).2,
         log ++ [Call.head_region buf level region range limit, Call.populate buf]) := by
  constructor
  · rfl
  · simp [Datastore.get_region, traced]

/-- C5: for every URL and every pair of index headers, `open(url, h)` instantiates the same
backend class as `open(url)`, the class does not change with the header, and the URL and
the header reach the constructor unchanged. -/
theorem open_header_same_backend (u : Url) (h h2 : IndexHeader) :
    constructed (Datastore.open_header u h) = constructed (Datastore.open u) ∧
    constructed (Datastore.open_header u h) = constructed (Datastore.open_header u h2) ∧
    ∃ c : Construction, Datastore.open_header u h = Except.ok c ∧
      c.url = u ∧ c.header = some h := by
  by_cases hs : u.scheme = "dir"
  · exact ⟨by simp [Datastore.open, Datastore.open_header, constructed, hs],
      by simp [Datastore.open_header, constructed, hs],
      { backend := Backend.Dirstore, url := u, header := some h },
      by simp [Datastore.open_header, hs], rfl, rfl⟩
  · exact ⟨by simp [Datastore.open, Datastore.open_header, constructed, hs],
      by simp [Datastore.open_header, constructed, hs],
      { backend := Backend.Blobstore, url := u, header := some h },
      by simp [Datastore.open_header, hs], rfl, rfl⟩

end platefile
end vw

/-! ## Theorems: `image2tms` validation -/

namespace image2tms

/-- The truncating remainder by two is one exactly for the positive odd numbers. -/
theorem cmod_two_eq_one_iff (a : Int) : cmod a 2 = 1 ↔ 0 ≤ a ∧ a % 2 = 1 := by
  unfold cmod
  rcases lt_or_le a 0 with h | h
  · have h1 : Int.tmod a 2 ≤ 0 := by
      cases a with
      | ofNat n => exact absurd h (by simp)
      | negSucc n =>
        show -(((n + 1) % 2 : Nat) : Int) ≤ 0
        omega
    constructor
    · intro h2; omega
    · rintro ⟨h2, _⟩; omega
  · rw [Int.tmod_eq_emod h (by decide)]
    simp [h]

/-- C6: once the earlier checks of `main` have passed (no `--help`, at least one input file,
`patch_size > 0`), the overlap check is true, `main` takes the overlap error exit and
returns 1, exactly when `patch_overlap` is not an even number with
`0 <= patch_overlap < patch_size`. -/
theorem overlap_rejected_iff (o : Options) (hhelp : o.help = 0) (hin : 1 ≤ o.input_file)
    (hps : 0 < o.patch_size) :
    (overlap_check o.patch_size o.patch_overlap = true ↔
      ¬ (o.patch_overlap % 2 = 0 ∧ 0 ≤ o.patch_overlap ∧ o.patch_overlap < o.patch_size)) ∧
    (main o = Outcome.error_patch_overlap ↔
      ¬ (o.patch_overlap % 2 = 0 ∧ 0 ≤ o.patch_overlap ∧ o.patch_overlap < o.patch_size)) ∧
    ((main o).return_value = 1 ↔
      ¬ (o.patch_overlap % 2 = 0 ∧ 0 ≤ o.patch_overlap ∧ o.patch_overlap < o.patch_size)) := by
  have hc : overlap_check o.patch_size o.patch_overlap = true ↔
      ¬ (o.patch_overlap % 2 = 0 ∧ 0 ≤ o.patch_overlap ∧ o.patch_overlap < o.patch_size) := by
    simp only [overlap_check, Bool.or_eq_true, decide_eq_true_eq, cmod_two_eq_one_iff]
    constructor
    · rintro ((h | h) | ⟨h, h2⟩) <;> omega
    · intro h
      by_cases h1 : o.patch_overlap < 0
      · exact Or.inl (Or.inl h1)
      · by_cases h2 : o.patch_overlap ≥ o.patch_size
        · exact Or.inl (Or.inr h2)
        · refine Or.inr ⟨by omega, ?_⟩
          have := Int.emod_two_eq o.patch_overlap
          omega
  have h1 : ¬ o.input_file < 1 := by omega
  have h2 : ¬ o.patch_size ≤ 0 := by omega
  refine ⟨hc, ?_, ?_⟩
  · rw [← hc]
    by_cases hk : overlap_check o.patch_size o.patch_overlap = true
    · simp [main, hhelp, h1, h2, hk]
    · have hk2 : overlap_check o.patch_size o.patch_overlap = false := Bool.eq_false_iff.mpr hk
      unfold main
      rw [if_neg (by simp [hhelp]), if_neg h1, if_neg h2, hk2]
      split_ifs <;> simp_all
  · rw [← hc]
    by_cases hk : overlap_check o.patch_size o.patch_overlap = true
    · simp [main, hhelp, h1, h2, hk, Outcome.return_value]
    · have hk2 : overlap_check o.patch_size o.patch_overlap = false := Bool.eq_false_iff.mpr hk
      unfold main
      rw [if_neg (by simp [hhelp]), if_neg h1, if_neg h2, hk2]
      split_ifs <;> simp_all [Outcome.return_value]

/-- Witness for C6 at `patch_size = 256`, `patch_overlap = -3`: the hypotheses hold and the
negative odd overlap, whose C++ remainder is -1, is rejected. -/
theorem overlap_rejected_iff_witness :
    main { help := 0, input_file := 1, patch_size := 256, patch_overlap := -3,
           channel_type := "uint8" } = Outcome.error_patch_overlap ∧
    cmod (-3) 2 = -1 :=
  ⟨((overlap_rejected_iff
      { help := 0, input_file := 1, patch_size := 256, patch_overlap := -3,
        channel_type := "uint8" } rfl (by decide) (by decide)).2.1).2 (by decide),
    by decide⟩


/-! ## Theorems: binary64 rounding and the patch-aligned box -/

/-- An integer is its own nearest integer. -/
theorem round_half_even_int (n : ℤ) : round_half_even (n : ℚ) = n := by
  simp [round_half_even]

/-- Rounding to the nearest integer moves a value by at most one half. -/
theorem abs_round_half_even_sub (m : ℚ) : |(round_half_even m : ℚ) - m| ≤ 1 / 2 := by
  have h1 := Int.floor_le m
  have h2 := Int.lt_floor_add_one m
  unfold round_half_even
  split_ifs with a b c
  · rw [abs_le]; constructor <;> linarith
  · rw [abs_le]; push_cast; constructor <;> linarith
  · rw [abs_le]; constructor <;> linarith
  · rw [abs_le]; push_cast; constructor <;> linarith

/-- Relative error of binary64 rounding, positive case: at most `2^-53`. -/
theorem round_pos_err (q : ℚ) (hq : 0 < q) : |round_pos q - q| ≤ q / 2 ^ 53 := by
  unfold round_pos
  set e : ℤ := Int.log 2 q - 52 with he
  have hpos : (0 : ℚ) < 2 ^ e := zpow_pos (by norm_num) e
  have h1 := abs_round_half_even_sub (q / 2 ^ e)
  have hlow : (2 : ℚ) ^ (e + 52) ≤ q := by
    have := Int.zpow_log_le_self (b := 2) (r := q) (by norm_num) hq
    have h3 : e + 52 = Int.log 2 q := by omega
    rw [h3]; exact_mod_cast this
  have heq : (round_half_even (q / 2 ^ e) : ℚ) * 2 ^ e - q
      = ((round_half_even (q / 2 ^ e) : ℚ) - q / 2 ^ e) * 2 ^ e := by
    field_simp
  rw [heq, abs_mul, abs_of_pos hpos]
  have h4 : (2 : ℚ) ^ (e + 52) = 2 ^ e * 2 ^ 52 := by
    rw [zpow_add₀ (by norm_num)]; norm_num
  calc |(round_half_even (q / 2 ^ e) : ℚ) - q / 2 ^ e| * 2 ^ e
      ≤ 1 / 2 * 2 ^ e := by gcongr
    _ = 2 ^ e * 2 ^ 52 / 2 ^ 53 := by ring
    _ ≤ q / 2 ^ 53 := by rw [← h4]; gcongr

/-- Relative error of binary64 rounding: `|round_double q - q| ≤ |q| * 2^-53`. -/
theorem round_double_err (q : ℚ) : |round_double q - q| ≤ |q| / 2 ^ 53 := by
  unfold round_double
  split_ifs with h0 hp
  · simp [h0]
  · rw [abs_of_pos hp]; exact round_pos_err q hp
  · have hn : 0 < -q := by
      rcases lt_trichotomy q 0 with h | h | h
      · linarith
      · exact absurd h h0
      · exact absurd h hp
    have := round_pos_err (-q) hn
    rw [abs_of_neg (by linarith : q < 0)]
    rw [show -round_pos (-q) - q = -(round_pos (-q) - -q) by ring, abs_neg]
    exact this

/-- Positive integers below `2^53` are binary64 values. -/
theorem round_pos_nat (n : ℕ) (hn : 0 < n) (hlt : n < 2 ^ 53) : round_pos (n : ℚ) = n := by
  unfold round_pos
  rw [Int.log_natCast]
  have hl : Nat.log 2 n < 53 := Nat.log_lt_of_lt_pow (by omega) hlt
  obtain ⟨k, hk⟩ : ∃ k : ℕ, ((Nat.log 2 n : ℤ) - 52) = -(k : ℤ) := ⟨52 - Nat.log 2 n, by omega⟩
  rw [hk, zpow_neg, zpow_natCast]
  have h2 : ((n : ℚ) / (2 ^ k)⁻¹) = ((n * 2 ^ k : ℕ) : ℤ) := by
    push_cast; field_simp
  rw [h2, round_half_even_int]
  push_cast; field_simp

/-- Integers of magnitude below `2^53` are binary64 values: rounding leaves them unchanged. -/
theorem round_double_int (n : ℤ) (h : |n| < 2 ^ 53) : round_double (n : ℚ) = n := by
  unfold round_double
  rcases lt_trichotomy n 0 with hn | hn | hn
  · have h0 : (n : ℚ) ≠ 0 := by exact_mod_cast hn.ne
    have h1 : ¬ (0 : ℚ) < n := by push_neg; exact_mod_cast hn.le
    rw [if_neg h0, if_neg h1]
    have h2 : (-(n : ℚ)) = ((-n).toNat : ℚ) := by
      have : ((-n).toNat : ℤ) = -n := Int.toNat_of_nonneg (by omega)
      have h3 : (((-n).toNat : ℤ) : ℚ) = ((-n : ℤ) : ℚ) := by rw [this]
      push_cast at h3; linarith
    rw [h2, round_pos_nat _ (by omega) (by rw [abs_of_neg hn] at h; omega), ← h2]; ring
  · simp [hn]
  · have h0 : (n : ℚ) ≠ 0 := by exact_mod_cast hn.ne'
    have h1 : (0 : ℚ) < n := by exact_mod_cast hn
    rw [if_neg h0, if_pos h1]
    have h2 : (n : ℚ) = (n.toNat : ℚ) := by
      have : (n.toNat : ℤ) = n := Int.toNat_of_nonneg (by omega)
      have h3 : ((n.toNat : ℤ) : ℚ) = (n : ℚ) := by rw [this]
      push_cast at h3; linarith
    rw [h2, round_pos_nat _ (by omega) (by rw [abs_of_pos hn] at h; omega)]

/-- The rounded quotient of two 32-bit integers has the floor and the ceiling of the exact
quotient: a quotient that is not an integer is at least `1/b` away from the integers, and the
rounding error is smaller than that. -/
theorem floor_ceil_round_div (a b : ℤ) (ha : |a| ≤ 2 ^ 31) (hb : 0 < b) :
    ⌊round_double ((a : ℚ) / b)⌋ = ⌊(a : ℚ) / b⌋ ∧
    ⌈round_double ((a : ℚ) / b)⌉ = ⌈(a : ℚ) / b⌉ := by
  have hbq : (0 : ℚ) < b := by exact_mod_cast hb
  by_cases hdiv : b ∣ a
  · obtain ⟨k, rfl⟩ := hdiv
    have hq : ((b * k : ℤ) : ℚ) / b = (k : ℚ) := by push_cast; field_simp
    have hk : |k| < 2 ^ 53 := by
      have h1 : |k| ≤ |b * k| := by
        rw [abs_mul]
        have : 1 ≤ |b| := by rw [abs_of_pos hb]; omega
        nlinarith [abs_nonneg k]
      omega
    rw [hq, round_double_int k hk]
    exact ⟨rfl, rfl⟩
  · set q : ℚ := (a : ℚ) / b with hqdef
    have hr1 : 1 ≤ a % b := by
      have h0 := Int.emod_nonneg a hb.ne'
      rcases h0.lt_or_eq with h | h
      · omega
      · exact absurd (Int.dvd_of_emod_eq_zero h.symm) hdiv
    have hr2 : a % b ≤ b - 1 := by
      have := Int.emod_lt_of_pos a hb; omega
    have hsplit : q = ((a / b : ℤ) : ℚ) + ((a % b : ℤ) : ℚ) / b := by
      have h := Int.emod_add_ediv a b
      have h2 : (a : ℚ) = ((a % b : ℤ) : ℚ) + b * ((a / b : ℤ) : ℚ) := by
        exact_mod_cast h.symm
      rw [hqdef]; field_simp; linarith
    have hlo : ((a / b : ℤ) : ℚ) + 1 / b ≤ q := by
      rw [hsplit]
      have : (1 : ℚ) ≤ ((a % b : ℤ) : ℚ) := by exact_mod_cast hr1
      have : (1 : ℚ) / b ≤ ((a % b : ℤ) : ℚ) / b := by gcongr
      linarith
    have hhi : q ≤ ((a / b : ℤ) : ℚ) + 1 - 1 / b := by
      rw [hsplit]
      have h1 : ((a % b : ℤ) : ℚ) ≤ (b : ℚ) - 1 := by exact_mod_cast hr2
      have h2 : ((a % b : ℤ) : ℚ) / b ≤ ((b : ℚ) - 1) / b := by gcongr
      have h3 : ((b : ℚ) - 1) / b = 1 - 1 / b := by field_simp
      linarith
    have hinv : (0 : ℚ) < 1 / b := by positivity
    have habs : |q| ≤ 2 ^ 31 / b := by
      rw [hqdef, abs_div, abs_of_pos hbq]
      have : |(a : ℚ)| ≤ 2 ^ 31 := by exact_mod_cast ha
      gcongr
    have herr : |round_double q - q| < 1 / b := by
      calc |round_double q - q| ≤ |q| / 2 ^ 53 := round_double_err q
        _ ≤ 2 ^ 31 / b / 2 ^ 53 := by gcongr
        _ = (1 / b) * (2 ^ 31 / 2 ^ 53) := by ring
        _ < (1 / b) * 1 := by gcongr; norm_num
        _ = 1 / b := by ring
    rw [abs_lt] at herr
    obtain ⟨he1, he2⟩ := herr
    have hfq : ⌊q⌋ = a / b := by
      rw [Int.floor_eq_iff]; constructor <;> linarith
    have hcq : ⌈q⌉ = a / b + 1 := by
      rw [Int.ceil_eq_iff]; push_cast; constructor <;> linarith
    have hfr : ⌊round_double q⌋ = a / b := by
      rw [Int.floor_eq_iff]; constructor <;> linarith
    have hcr : ⌈round_double q⌉ = a / b + 1 := by
      rw [Int.ceil_eq_iff]; push_cast; constructor <;> linarith
    rw [hfq, hcq, hfr, hcr]
    exact ⟨rfl, rfl⟩

/-- Conversion of an integral `double` to `int` succeeds exactly when it is in range. -/
theorem double_to_int_intCast (n : ℤ) :
    double_to_int (n : ℚ) = if INT_MIN ≤ n ∧ n ≤ INT_MAX then some n else none := by
  unfold double_to_int
  simp

/-- The floor multiple lies in `(v - ps, v]`. -/
theorem floor_mul_bounds (v ps : ℤ) (hps : 0 < ps) :
    v - ps < ⌊(v : ℚ) / ps⌋ * ps ∧ ⌊(v : ℚ) / ps⌋ * ps ≤ v := by
  have hq : (0 : ℚ) < ps := by exact_mod_cast hps
  have h1 := Int.floor_le ((v : ℚ) / ps)
  have h2 := Int.lt_floor_add_one ((v : ℚ) / ps)
  rw [le_div_iff₀ hq] at h1
  rw [div_lt_iff₀ hq] at h2
  constructor
  · have : (v : ℚ) - ps < ((⌊(v : ℚ) / ps⌋ * ps : ℤ) : ℚ) := by push_cast; linarith
    exact_mod_cast this
  · have : ((⌊(v : ℚ) / ps⌋ * ps : ℤ) : ℚ) ≤ (v : ℚ) := by push_cast; linarith
    exact_mod_cast this

/-- The ceiling multiple lies in `[v, v + ps)`. -/
theorem ceil_mul_bounds (v ps : ℤ) (hps : 0 < ps) :
    v ≤ ⌈(v : ℚ) / ps⌉ * ps ∧ ⌈(v : ℚ) / ps⌉ * ps < v + ps := by
  have hq : (0 : ℚ) < ps := by exact_mod_cast hps
  have h1 := Int.le_ceil ((v : ℚ) / ps)
  have h2 := Int.ceil_lt_add_one ((v : ℚ) / ps)
  rw [div_le_iff₀ hq] at h1
  rw [← sub_lt_iff_lt_add, lt_div_iff₀ hq] at h2
  constructor
  · have : (v : ℚ) ≤ ((⌈(v : ℚ) / ps⌉ * ps : ℤ) : ℚ) := by push_cast; linarith
    exact_mod_cast this
  · have : ((⌈(v : ℚ) / ps⌉ * ps : ℤ) : ℚ) < (v : ℚ) + ps := by push_cast; linarith
    exact_mod_cast this

/-- For 32-bit `v` and `patch_size > 0` the `double` computation of the floor multiple is
exact, and its conversion to `int` succeeds exactly when the multiple is at least `INT_MIN`. -/
theorem floor_to_patch_eq (v ps : ℤ) (hv1 : INT_MIN ≤ v) (hv2 : v ≤ INT_MAX)
    (hps : 0 < ps) (hps2 : ps ≤ INT_MAX) :
    floor_to_patch v ps =
      if INT_MIN ≤ ⌊(v : ℚ) / ps⌋ * ps then some (⌊(v : ℚ) / ps⌋ * ps) else none := by
  unfold INT_MIN at hv1
  unfold INT_MAX at hv2 hps2
  obtain ⟨b1, b2⟩ := floor_mul_bounds v ps hps
  unfold floor_to_patch
  rw [(floor_ceil_round_div v ps (by rw [abs_le]; constructor <;> omega) hps).1]
  rw [show ((⌊(v : ℚ) / ps⌋ : ℚ) * (ps : ℚ)) = ((⌊(v : ℚ) / ps⌋ * ps : ℤ) : ℚ) by push_cast; rfl]
  rw [round_double_int _ (by rw [abs_lt]; constructor <;> omega), double_to_int_intCast]
  have : ⌊(v : ℚ) / ps⌋ * ps ≤ INT_MAX := by unfold INT_MAX; omega
  simp [this]

/-- For 32-bit `v` and `patch_size > 0` the `double` computation of the ceiling multiple is
exact, and its conversion to `int` succeeds exactly when the multiple is at most `INT_MAX`. -/
theorem ceil_to_patch_eq (v ps : ℤ) (hv1 : INT_MIN ≤ v) (hv2 : v ≤ INT_MAX)
    (hps : 0 < ps) (hps2 : ps ≤ INT_MAX) :
    ceil_to_patch v ps =
      if ⌈(v : ℚ) / ps⌉ * ps ≤ INT_MAX then some (⌈(v : ℚ) / ps⌉ * ps) else none := by
  unfold INT_MIN at hv1
  unfold INT_MAX at hv2 hps2
  obtain ⟨b1, b2⟩ := ceil_mul_bounds v ps hps
  unfold ceil_to_patch
  rw [(floor_ceil_round_div v ps (by rw [abs_le]; constructor <;> omega) hps).2]
  rw [show ((⌈(v : ℚ) / ps⌉ : ℚ) * (ps : ℚ)) = ((⌈(v : ℚ) / ps⌉ * ps : ℤ) : ℚ) by push_cast; rfl]
  rw [round_double_int _ (by rw [abs_lt]; constructor <;> omega), double_to_int_intCast]
  have : INT_MIN ≤ ⌈(v : ℚ) / ps⌉ * ps := by unfold INT_MIN; omega
  simp [this]

/-- Floor of a quotient of integers as integer division. -/
theorem floor_div_eq (a b : ℤ) (hb : 0 < b) : ⌊(a : ℚ) / b⌋ = a / b := by
  have hq : (0 : ℚ) < b := by exact_mod_cast hb
  rw [Int.floor_eq_iff, le_div_iff₀ hq, div_lt_iff₀ hq]
  have h1 := Int.emod_add_ediv a b
  have h2 := Int.emod_nonneg a hb.ne'
  have h3 := Int.emod_lt_of_pos a hb
  constructor
  · have : a / b * b ≤ a := by nlinarith
    exact_mod_cast this
  · have : a < (a / b + 1) * b := by nlinarith
    exact_mod_cast this

/-- Ceiling of a quotient of integers as integer division. -/
theorem ceil_div_eq (a b : ℤ) (hb : 0 < b) : ⌈(a : ℚ) / b⌉ = -((-a) / b) := by
  have h := floor_div_eq (-a) b hb
  have : ⌈(a : ℚ) / b⌉ = -⌊((-a : ℤ) : ℚ) / b⌋ := by
    rw [← Int.ceil_neg]; congr 1; push_cast; ring
  rw [this, h]

/-- General form of the patch-aligned box for 32-bit inputs. -/
theorem data_bbox_eq (bbox : BBox2i) (ps : ℤ)
    (hb : bbox.is_int32)
    (hps : 0 < ps) (hps2 : ps ≤ INT_MAX) :
    data_bbox bbox ps =
      if INT_MIN ≤ ⌊(bbox.min_x : ℚ) / ps⌋ * ps ∧ INT_MIN ≤ ⌊(bbox.min_y : ℚ) / ps⌋ * ps ∧
          ⌈(bbox.width : ℚ) / ps⌉ * ps ≤ INT_MAX ∧ ⌈(bbox.height : ℚ) / ps⌉ * ps ≤ INT_MAX then
        some { min_x := ⌊(bbox.min_x : ℚ) / ps⌋ * ps, min_y := ⌊(bbox.min_y : ℚ) / ps⌋ * ps,
               width := ⌈(bbox.width : ℚ) / ps⌉ * ps, height := ⌈(bbox.height : ℚ) / ps⌉ * ps }
      else none := by
  obtain ⟨⟨hx1, hx2⟩, ⟨hy1, hy2⟩, ⟨hw1, hw2⟩, ⟨hh1, hh2⟩⟩ := hb
  unfold data_bbox
  rw [if_neg hps.ne', floor_to_patch_eq _ _ hx1 hx2 hps hps2,
    floor_to_patch_eq _ _ hy1 hy2 hps hps2, ceil_to_patch_eq _ _ hw1 hw2 hps hps2,
    ceil_to_patch_eq _ _ hh1 hh2 hps hps2]
  split_ifs <;> simp_all

/-- C7 (amended): for every composite box of 32-bit `int` values and every 32-bit
`patch_size > 0` such that the floor multiples of the minima are at least `INT_MIN` and the
ceiling multiples of the extents are at most `INT_MAX`, `data_bbox` is produced, its minima
are `floor(min/patch_size)*patch_size`, its extents are `ceil(extent/patch_size)*patch_size`,
and each of the four is an integer multiple of `patch_size`. -/
theorem data_bbox_aligned (bbox : BBox2i) (patch_size : ℤ)
    (hb : bbox.is_int32)
    (hps : 0 < patch_size) (hps2 : patch_size ≤ INT_MAX)
    (fx : INT_MIN ≤ ⌊(bbox.min_x : ℚ) / patch_size⌋ * patch_size)
    (fy : INT_MIN ≤ ⌊(bbox.min_y : ℚ) / patch_size⌋ * patch_size)
    (fw : ⌈(bbox.width : ℚ) / patch_size⌉ * patch_size ≤ INT_MAX)
    (fh : ⌈(bbox.height : ℚ) / patch_size⌉ * patch_size ≤ INT_MAX) :
    ∃ d : BBox2i, data_bbox bbox patch_size = some d ∧
      d.min_x = ⌊(bbox.min_x : ℚ) / patch_size⌋ * patch_size ∧
      d.min_y = ⌊(bbox.min_y : ℚ) / patch_size⌋ * patch_size ∧
      d.width = ⌈(bbox.width : ℚ) / patch_size⌉ * patch_size ∧
      d.height = ⌈(bbox.height : ℚ) / patch_size⌉ * patch_size ∧
      patch_size ∣ d.min_x ∧ patch_size ∣ d.min_y ∧
      patch_size ∣ d.width ∧ patch_size ∣ d.height := by
  refine ⟨{ min_x := ⌊(bbox.min_x : ℚ) / patch_size⌋ * patch_size,
            min_y := ⌊(bbox.min_y : ℚ) / patch_size⌋ * patch_size,
            width := ⌈(bbox.width : ℚ) / patch_size⌉ * patch_size,
            height := ⌈(bbox.height : ℚ) / patch_size⌉ * patch_size },
    ?_, rfl, rfl, rfl, rfl, Dvd.intro_left _ rfl, Dvd.intro_left _ rfl,
    Dvd.intro_left _ rfl, Dvd.intro_left _ rfl⟩
  rw [data_bbox_eq bbox patch_size hb hps hps2,
    if_pos ⟨fx, fy, fw, fh⟩]

/-- Witness for C7 at the composite box `(-300, 255, 2, 513)` with `patch_size = 256`: the
hypotheses hold and the data box is `(-512, 0, 256, 768)`. -/
theorem data_bbox_aligned_witness :
    ∃ d : BBox2i, data_bbox { min_x := -300, min_y := 255, width := 2, height := 513 } 256 = some d ∧
      d.min_x = -512 ∧ d.min_y = 0 ∧ d.width = 256 ∧ d.height = 768 := by
  have fl1 : ⌊((-300 : ℤ) : ℚ) / ((256 : ℤ) : ℚ)⌋ = -2 := by
    rw [floor_div_eq _ _ (by decide)]; decide
  have fl2 : ⌊((255 : ℤ) : ℚ) / ((256 : ℤ) : ℚ)⌋ = 0 := by
    rw [floor_div_eq _ _ (by decide)]; decide
  have cl1 : ⌈((2 : ℤ) : ℚ) / ((256 : ℤ) : ℚ)⌉ = 1 := by
    rw [ceil_div_eq _ _ (by decide)]; decide
  have cl2 : ⌈((513 : ℤ) : ℚ) / ((256 : ℤ) : ℚ)⌉ = 3 := by
    rw [ceil_div_eq _ _ (by decide)]; decide
  obtain ⟨d, h, h1, h2, h3, h4, -⟩ :=
    data_bbox_aligned { min_x := -300, min_y := 255, width := 2, height := 513 } 256
      (by decide) (by decide) (by decide)
      (by show INT_MIN ≤ ⌊((-300 : ℤ) : ℚ) / ((256 : ℤ) : ℚ)⌋ * 256; rw [fl1]; decide)
      (by show INT_MIN ≤ ⌊((255 : ℤ) : ℚ) / ((256 : ℤ) : ℚ)⌋ * 256; rw [fl2]; decide)
      (by show ⌈((2 : ℤ) : ℚ) / ((256 : ℤ) : ℚ)⌉ * 256 ≤ INT_MAX; rw [cl1]; decide)
      (by show ⌈((513 : ℤ) : ℚ) / ((256 : ℤ) : ℚ)⌉ * 256 ≤ INT_MAX; rw [cl2]; decide)
  refine ⟨d, h, ?_, ?_, ?_, ?_⟩
  · rw [h1]; show ⌊((-300 : ℤ) : ℚ) / ((256 : ℤ) : ℚ)⌋ * 256 = -512; rw [fl1]; decide
  · rw [h2]; show ⌊((255 : ℤ) : ℚ) / ((256 : ℤ) : ℚ)⌋ * 256 = 0; rw [fl2]; decide
  · rw [h3]; show ⌈((2 : ℤ) : ℚ) / ((256 : ℤ) : ℚ)⌉ * 256 = 256; rw [cl1]; decide
  · rw [h4]; show ⌈((513 : ℤ) : ℚ) / ((256 : ℤ) : ℚ)⌉ * 256 = 768; rw [cl2]; decide

/-- C7 (as stated, refuted): for the composite box with `min x = INT_MIN` and
`patch_size = 3` the floor multiple `floor(min/3)*3` is `-2147483649`, which is not an `int`;
the conversion is undefined and no data box with aligned fields is produced. -/
theorem data_bbox_undefined_at_int_min :
    data_bbox { min_x := -2147483648, min_y := 0, width := 0, height := 0 } 3 = none ∧
    ⌊((-2147483648 : ℤ) : ℚ) / ((3 : ℤ) : ℚ)⌋ * 3 = -2147483649 ∧
    ¬ ∃ d : BBox2i,
        data_bbox { min_x := -2147483648, min_y := 0, width := 0, height := 0 } 3 = some d ∧
        (3 : ℤ) ∣ d.min_x ∧ (3 : ℤ) ∣ d.min_y ∧ (3 : ℤ) ∣ d.width ∧ (3 : ℤ) ∣ d.height := by
  have fl : ⌊((-2147483648 : ℤ) : ℚ) / ((3 : ℤ) : ℚ)⌋ = -715827883 := by
    rw [floor_div_eq _ _ (by decide)]; decide
  have hnone : data_bbox { min_x := -2147483648, min_y := 0, width := 0, height := 0 } 3
      = none := by
    rw [data_bbox_eq _ _ (by decide) (by decide) (by decide)]
    apply if_neg
    rintro ⟨h, -⟩
    change INT_MIN ≤ ⌊((-2147483648 : ℤ) : ℚ) / ((3 : ℤ) : ℚ)⌋ * 3 at h
    rw [fl] at h
    exact absurd h (by decide)
  refine ⟨hnone, by rw [fl]; decide, ?_⟩
  rintro ⟨d, hd, -⟩
  rw [hnone] at hd
  exact absurd hd (by simp)

/-- C8 (the code at the failing input): for the composite box `(255, 0, 2, 1)`, which spans
the columns 255 and 256, and `patch_size = 256`, the data box is `(0, 0, 256, 256)`; its
maximum `0 + 256` is smaller than the composite maximum `255 + 2`, so it does not contain
the composite box. -/
theorem data_bbox_not_grown :
    ∃ d : BBox2i,
      data_bbox { min_x := 255, min_y := 0, width := 2, height := 1 } 256 = some d ∧
      d = { min_x := 0, min_y := 0, width := 256, height := 256 } ∧
      d.min_x + d.width < 255 + 2 ∧
      ¬ (d.min_x ≤ 255 ∧ 255 + 2 ≤ d.min_x + d.width ∧
         d.min_y ≤ 0 ∧ 0 + 1 ≤ d.min_y + d.height) := by
  have fl1 : ⌊((255 : ℤ) : ℚ) / ((256 : ℤ) : ℚ)⌋ = 0 := by
    rw [floor_div_eq _ _ (by decide)]; decide
  have fl2 : ⌊((0 : ℤ) : ℚ) / ((256 : ℤ) : ℚ)⌋ = 0 := by
    rw [floor_div_eq _ _ (by decide)]; decide
  have cl1 : ⌈((2 : ℤ) : ℚ) / ((256 : ℤ) : ℚ)⌉ = 1 := by
    rw [ceil_div_eq _ _ (by decide)]; decide
  have cl2 : ⌈((1 : ℤ) : ℚ) / ((256 : ℤ) : ℚ)⌉ = 1 := by
    rw [ceil_div_eq _ _ (by decide)]; decide
  refine ⟨{ min_x := 0, min_y := 0, width := 256, height := 256 }, ?_, rfl, by decide,
    by decide⟩
  rw [data_bbox_eq _ _ (by decide) (by decide) (by decide)]
  simp only [fl1, fl2, cl1, cl2]
  decide

end image2tms
